import Mathlib

/-!
Verification of the invoice-extraction pipeline (`src/utils.py`, `src/ai.py`).

Modelling conventions.

* Python floats are modelled as exact decimal numbers `Dec` (an integer
  mantissa together with a power-of-ten denominator), viewed in `ℚ` through
  `Dec.toRat`.  Every numeric value appearing in the claims is an exact
  decimal, and every arithmetic operation performed by the code on those
  inputs is exact in double precision, so the idealisation is faithful on
  the inputs the claims speak about.
* Python strings are Lean `String`s (sequences of Unicode code points).
  `str.isdigit` / the regex class `\d` are modelled on the digit ranges the
  pipeline can actually meet (ASCII, Arabic-Indic, Extended Arabic-Indic
  decimal digits, plus the superscript digits for the `isdigit` class);
  the full Unicode tables are larger but agree with this model on every
  string built from the pipeline's character sets.
* Fallible Python code (returning `None` / degrading on exception) is
  modelled with `Option`.
-/

/-! ## Exact decimal numbers (model of Python floats) -/

/-- Exact decimal number: the value `mant / 10 ^ exp`. -/
structure Dec where
  mant : Int
  exp : Nat
deriving DecidableEq, Repr

/-- Embed an integer as a decimal. -/
def Dec.ofInt (n : Int) : Dec := ⟨n, 0⟩

/-- Exact addition of decimals (cross-multiplied). -/
def Dec.add (a b : Dec) : Dec :=
  ⟨a.mant * 10 ^ b.exp + b.mant * 10 ^ a.exp, a.exp + b.exp⟩

/-- Exact subtraction of decimals. -/
def Dec.sub (a b : Dec) : Dec :=
  ⟨a.mant * 10 ^ b.exp - b.mant * 10 ^ a.exp, a.exp + b.exp⟩

/-- Exact multiplication of decimals. -/
def Dec.mul (a b : Dec) : Dec := ⟨a.mant * b.mant, a.exp + b.exp⟩

/-- The comparison `0 < a` on values: since `10 ^ exp > 0` this is the sign
of the mantissa. -/
def Dec.isPos (a : Dec) : Bool := 0 < a.mant

/-- The comparison `|a - b| <= 0.01` on values, used by the aligner's
`almost_equal` (tolerance `tol = 0.01`) and by the description cleaner. -/
def Dec.closeTo (a b : Dec) : Bool :=
  (Dec.sub a b).mant.natAbs * 100 ≤ 10 ^ (Dec.sub a b).exp

/-- The rational value of a decimal. -/
def Dec.toRat (a : Dec) : ℚ := (a.mant : ℚ) / 10 ^ a.exp

/-- Python's `sum(...)` over a list of decimals (left fold starting at `0`). -/
def Dec.sum (l : List Dec) : Dec := l.foldl Dec.add (Dec.ofInt 0)

/-! ## Character utilities -/

/-- Value of a Unicode decimal digit, on the ranges the pipeline can meet:
ASCII `0-9`, Arabic-Indic `٠-٩` (U+0660–U+0669) and Extended Arabic-Indic
`۰-۹` (U+06F0–U+06F9).  This models the digits accepted by Python's
`int()` / `float()` and matched by the regex class `\d`. -/
def decDigitVal? (c : Char) : Option Nat :=
  if 0x30 ≤ c.toNat ∧ c.toNat ≤ 0x39 then some (c.toNat - 0x30)
  else if 0x660 ≤ c.toNat ∧ c.toNat ≤ 0x669 then some (c.toNat - 0x660)
  else if 0x6F0 ≤ c.toNat ∧ c.toNat ≤ 0x6F9 then some (c.toNat - 0x6F0)
  else Option.none

/-- Model of Python's `str.isdigit` for a single character: the decimal
digits above plus the superscript digits (which are `isdigit` but carry no
decimal value, so `float()` raises on them). -/
def pyIsDigit (c : Char) : Bool :=
  (decDigitVal? c).isSome || c.toNat = 0xB2 || c.toNat = 0xB3 || c.toNat = 0xB9 ||
    (0x2070 ≤ c.toNat ∧ c.toNat ≤ 0x2079)

/-- Whitespace as split by Python's `str.split()` / stripped by `strip()`
(restricted to the whitespace that can occur in the pipeline's lines). -/
def pyIsSpace (c : Char) : Bool :=
  c == ' ' || c == '\t' || c == '\n' || c == '\r'

/-- ASCII lower-casing, modelling `str.lower()` on the ASCII letters the
placeholder patterns consist of (Arabic letters have no case). -/
def lowerChar (c : Char) : Char :=
  if 0x41 ≤ c.toNat ∧ c.toNat ≤ 0x5A then Char.ofNat (c.toNat + 32) else c

/-- Lower-case a string. -/
def lowerStr (s : String) : String := String.mk (s.toList.map lowerChar)

/-- Does `hay` start with `needle`? -/
def leadsWith : List Char → List Char → Bool
  | [], _ => true
  | _ :: _, [] => false
  | a :: as, b :: bs => a == b && leadsWith as bs

/-- Substring test on character lists (Python's `needle in hay`). -/
def containsChars : List Char → List Char → Bool
  | [], needle => needle.isEmpty
  | c :: rest, needle => leadsWith needle (c :: rest) || containsChars rest needle

/-- Python's `needle in hay` on strings. -/
def strContainsStr (hay needle : String) : Bool :=
  containsChars hay.toList needle.toList

/-- Maximal runs of characters satisfying `p` (fuel-driven so that the
definition reduces in the kernel; the fuel `l.length` always suffices). -/
def runsByF (p : Char → Bool) : Nat → List Char → List (List Char)
  | 0, _ => []
  | _ + 1, [] => []
  | fuel + 1, c :: cs =>
    if p c then
      List.takeWhile p (c :: cs) :: runsByF p fuel (List.dropWhile p (c :: cs))
    else
      runsByF p fuel cs

/-- Maximal runs of characters satisfying `p`. -/
def runsBy (p : Char → Bool) (l : List Char) : List (List Char) :=
  runsByF p l.length l

/-- Python's `s.split()` (split on whitespace runs, no empty tokens). -/
def pySplit (s : String) : List String :=
  (runsBy (fun c => !pyIsSpace c) s.toList).map String.mk

/-- Python's `s.strip()`. -/
def pyStrip (s : String) : String :=
  String.mk (((s.toList.dropWhile pyIsSpace).reverse.dropWhile pyIsSpace).reverse)

/-- Python's `" ".join(parts)`. -/
def joinSpace : List String → String
  | [] => ""
  | [x] => x
  | x :: xs => x ++ " " ++ joinSpace xs

/-- The maximal runs of `\d` digits in a string (`re.findall(r"\d+", s)`). -/
def digitRuns (s : String) : List (List Char) :=
  runsBy (fun c => (decDigitVal? c).isSome) s.toList

/-! ## `utils.normalize_numbers` and `utils.extract_number` -/

/-- The character substitution of `ARABIC_DIGIT_MAP`
(`str.maketrans("٠١٢٣٤٥٦٧٨٩٫٬", "0123456789..")`): the ten Arabic-Indic
digits U+0660–U+0669 map to their ASCII digits, the Arabic decimal
separator U+066B and thousands separator U+066C both map to `.`, and every
other character is unchanged. -/
def translateChar (c : Char) : Char :=
  if 0x660 ≤ c.toNat ∧ c.toNat ≤ 0x669 then Char.ofNat (c.toNat - 0x660 + 0x30)
  else if c.toNat = 0x66B ∨ c.toNat = 0x66C then '.'
  else c

/-- Body of `normalize_numbers` on a string: translate through
`ARABIC_DIGIT_MAP`, then `replace(",", "").replace(" ", "")`. -/
def pyNormalizeStr (s : String) : String :=
  String.mk ((s.toList.map translateChar).filter (fun c => !(c == ',' || c == ' ')))

/-- `utils.normalize_numbers` (the numeric inputs of the Python signature
arrive here already rendered as strings). -/
def normalize_numbers (s : Option String) : Option String :=
  match s with
  | Option.none => Option.none
  | some t => some (pyNormalizeStr t)

/-- Decimal value of a digit list (`int(...)` on an all-digit string);
`Option.none` when some character carries no decimal value. -/
def digitStep (acc : Option Nat) (c : Char) : Option Nat :=
  match acc, decDigitVal? c with
  | some a, some d => some (a * 10 + d)
  | _, _ => Option.none

/-- Decimal value of a digit list, as a fold of `digitStep`. -/
def digitsVal? (cs : List Char) : Option Nat :=
  cs.foldl digitStep (some 0)

/-- Python's `float(cs)` on a string of digit-class characters and dots
(the only strings `extract_number` ever passes to `float`): fails on two or
more dots, on a bare dot, and on digit-class characters without a decimal
value; otherwise the exact decimal `intpart.fracpart`. -/
def pyFloat? (cs : List Char) : Option Dec :=
  if 2 ≤ cs.count '.' then Option.none
  else if (cs.takeWhile (fun c => c ≠ '.')).length +
      ((cs.dropWhile (fun c => c ≠ '.')).drop 1).length = 0 then Option.none
  else
    match digitsVal? (cs.takeWhile (fun c => c ≠ '.')),
        digitsVal? ((cs.dropWhile (fun c => c ≠ '.')).drop 1) with
    | some i, some f =>
      some ⟨(i : Int) * 10 ^ ((cs.dropWhile (fun c => c ≠ '.')).drop 1).length + (f : Int),
        ((cs.dropWhile (fun c => c ≠ '.')).drop 1).length⟩
    | _, _ => Option.none

/-- `utils.extract_number`: normalize, keep only `isdigit` characters and
dots, parse as a float; any failure degrades to `Option.none`. -/
def extract_number (s : Option String) : Option Dec :=
  match s with
  | Option.none => Option.none
  | some t =>
    if pyNormalizeStr t = "" then Option.none
    else if ((pyNormalizeStr t).toList.filter (fun c => pyIsDigit c || c == '.')).isEmpty
        then Option.none
    else pyFloat? ((pyNormalizeStr t).toList.filter (fun c => pyIsDigit c || c == '.'))

example : extract_number (some "10.00") = some ⟨1000, 2⟩ := by decide
example : extract_number (some "٣٫١٤") = some ⟨314, 2⟩ := by decide
example : extract_number (some "abc") = Option.none := by decide
example : extract_number (some "1,234") = some ⟨1234, 0⟩ := by decide
example : extract_number (some "3") = some ⟨3, 0⟩ := by decide
example : extract_number (some ".") = Option.none := by decide
example : extract_number (some "1.2.3") = Option.none := by decide
example : pySplit "  a b1  c " = ["a", "b1", "c"] := by decide
example : pyStrip "  ab c " = "ab c" := by decide
example : Dec.closeTo ⟨1000, 2⟩ ⟨10, 0⟩ = true := by decide
example : Dec.closeTo ⟨1002, 2⟩ ⟨10, 0⟩ = false := by decide
example : strContainsStr "sample123" "sample" = true := by decide
example : lowerStr "Sample123" = "sample123" := by decide

/-! ## Field cleaners (`ai.py` post-processing helpers) -/

/-- `ai._clean_tax_number`: `None` for falsy input, else the digit
characters of the value (`re.sub(r"[^\d]", "", str(value))`), degraded to
`None` when no digit remains. -/
def _clean_tax_number (value : Option String) : Option String :=
  match value with
  | Option.none => Option.none
  | some s =>
    if s = "" then Option.none
    else if (s.toList.filter (fun c => (decDigitVal? c).isSome)).isEmpty then Option.none
    else some (String.mk (s.toList.filter (fun c => (decDigitVal? c).isSome)))

/-- `ai._clean_phone_number`: strip whitespace, dashes and parentheses,
then keep only digits; degraded to `None` when empty. -/
def _clean_phone_number (value : Option String) : Option String :=
  match value with
  | Option.none => Option.none
  | some s =>
    if s = "" then Option.none
    else
      let noSep := s.toList.filter
        (fun c => !(pyIsSpace c || c == '-' || c == '(' || c == ')'))
      let cleaned := noSep.filter (fun c => (decDigitVal? c).isSome)
      if cleaned.isEmpty then Option.none else some (String.mk cleaned)

/-- `ai._clean_invoice_type` and `ai._clean_city`: strip surrounding
whitespace, degrading to `None` for falsy input or an all-space value. -/
def _clean_invoice_type (value : Option String) : Option String :=
  match value with
  | Option.none => Option.none
  | some s =>
    if s = "" then Option.none
    else
      let cleaned := pyStrip s
      if cleaned = "" then Option.none else some cleaned

/-! ## Raw JSON payloads and `ai._post_process_extracted_data` -/

/-- Model of the JSON-ish Python values a raw payload is built from. -/
inductive PyVal where
  | pnone : PyVal
  | pbool : Bool → PyVal
  | pint : Int → PyVal
  | pfloat : Dec → PyVal
  | pstr : String → PyVal
  | plist : List PyVal → PyVal
  | pdict : List (String × PyVal) → PyVal

/-- Python truthiness of a value. -/
def pyTruthy : PyVal → Bool
  | PyVal.pnone => false
  | PyVal.pbool b => b
  | PyVal.pint n => n ≠ 0
  | PyVal.pfloat d => d.mant ≠ 0
  | PyVal.pstr s => s ≠ ""
  | PyVal.plist xs => !xs.isEmpty
  | PyVal.pdict kvs => !kvs.isEmpty

/-- Python's `a or b`. -/
def pyOr (a b : PyVal) : PyVal := if pyTruthy a then a else b

/-- Key membership in a dict (`k in data`). -/
def hasKey (k : String) (kvs : List (String × PyVal)) : Bool :=
  kvs.any (fun p => p.1 == k)

/-- Value stored under a key, when present. -/
def getKey? (k : String) (kvs : List (String × PyVal)) : Option PyVal :=
  (kvs.find? (fun p => p.1 == k)).map (fun p => p.2)

/-- Python's `data.get(k)` (absent keys read as `None`). -/
def dictGet (k : String) (kvs : List (String × PyVal)) : PyVal :=
  (getKey? k kvs).getD PyVal.pnone

/-- Python's `data[k] = v` on an (insertion-ordered) dict: update the value
in place when the key exists, else append the new binding. -/
def setKey (k : String) (v : PyVal) (kvs : List (String × PyVal)) :
    List (String × PyVal) :=
  if hasKey k kvs then kvs.map (fun p => if p.1 == k then (p.1, v) else p)
  else kvs ++ [(k, v)]

/-- Rendering of a natural number in decimal (fuel-driven division loop). -/
def natDigitsF : Nat → Nat → List Char
  | 0, _ => []
  | fuel + 1, n =>
    if n < 10 then [Char.ofNat (0x30 + n)]
    else natDigitsF fuel (n / 10) ++ [Char.ofNat (0x30 + n % 10)]

/-- Decimal rendering of a natural number. -/
def natRepr (n : Nat) : String := String.mk (natDigitsF (n + 1) n)

/-- Decimal rendering of an integer. -/
def intRepr (n : Int) : String :=
  if n < 0 then "-" ++ natRepr n.natAbs else natRepr n.natAbs

/-- Python's `str(value)`.  Scalars are rendered faithfully (a float prints
its decimal digits); the container cases are rendered as bracket markers —
the post-processing stage only ever applies `str` to scalar header fields,
and no claim exercises a container here. -/
def pyStr : PyVal → String
  | PyVal.pnone => "None"
  | PyVal.pbool true => "True"
  | PyVal.pbool false => "False"
  | PyVal.pstr s => s
  | PyVal.pint n => intRepr n
  | PyVal.pfloat d =>
    if d.exp = 0 then intRepr d.mant ++ ".0"
    else
      let digits := natRepr d.mant.natAbs
      let pad := if digits.length ≤ d.exp then
          String.mk (List.replicate (d.exp + 1 - digits.length) '0') ++ digits
        else digits
      let cut := pad.length - d.exp
      (if d.mant < 0 then "-" else "") ++
        String.mk (pad.toList.take cut) ++ "." ++ String.mk (pad.toList.drop cut)
  | PyVal.plist _ => "[...]"
  | PyVal.pdict _ => "[dict]"

/-- The `arabic_to_english` alias table of `_post_process_extracted_data`,
in source order. -/
def arabicToEnglish : List (String × String) :=
  [("الاسم التجاري", "commercial_name"),
   ("الرقم الضريبي", "tax_number"),
   ("تسلسل مصدر الدخل", "income_source_sequence"),
   ("رقم الفاتورة الإلكترونية", "electronic_invoice_number"),
   ("رقم فاتورة البائع", "seller_invoice_number"),
   ("تاريخ إصدار الفاتورة", "invoice_date"),
   ("نوع الفاتورة", "invoice_type"),
   ("نوع العملة", "currency"),
   ("اسم المشتري", "buyer_name"),
   ("رقم المشتري", "buyer_number"),
   ("رقم الهاتف", "phone_number"),
   ("المدينة", "city"),
   ("مجموع قيمة الخصم", "total_discount"),
   ("إجمالي قيمة الفاتورة", "grand_total")]

/-- The alias-resolution loop: for every `(ar_key, en_key)` pair, copy the
Arabic value over exactly when the Arabic key is present and the English
key is absent. -/
def aliasStage (kvs : List (String × PyVal)) : List (String × PyVal) :=
  arabicToEnglish.foldl
    (fun d p => if hasKey p.1 d && !hasKey p.2 d then setKey p.2 (dictGet p.1 d) d else d)
    kvs

/-- The English synonym handling for `income_source_sequence`. -/
def synonymStage (d : List (String × PyVal)) : List (String × PyVal) :=
  let d1 :=
    if hasKey "income_source_number" d && !hasKey "income_source_sequence" d then
      setKey "income_source_sequence" (dictGet "income_source_number" d) d
    else d
  if hasKey "income_source" d1 && !hasKey "income_source_sequence" d1 then
    setKey "income_source_sequence" (dictGet "income_source" d1) d1
  else d1

/-- Canonicalisation of one raw item mapping (the `norm_item` dictionary
built inside `_post_process_extracted_data`). -/
def normItem (item : List (String × PyVal)) : List (String × PyVal) :=
  [("description", pyOr (dictGet "description" item) (dictGet "الوصف" item)),
   ("quantity", pyOr (dictGet "quantity" item) (dictGet "الكمية" item)),
   ("unit_price", pyOr (dictGet "unit_price" item) (dictGet "سعر الوحدة" item)),
   ("amount", pyOr (dictGet "amount" item) (dictGet "المبلغ" item)),
   ("discount", pyOr (dictGet "discount" item) (dictGet "الخصم" item)),
   ("line_subtotal", dictGet "line_subtotal" item),
   ("tax_rate", dictGet "tax_rate" item),
   ("tax_amount", dictGet "tax_amount" item),
   ("line_total", pyOr (dictGet "line_total" item) (dictGet "الاجمالي" item))]

/-- Normalisation of the `items` list: when `data.get("items")` is a list,
canonicalise each mapping-typed element and silently drop the rest. -/
def itemsStage (d : List (String × PyVal)) : List (String × PyVal) :=
  match getKey? "items" d with
  | some (PyVal.plist raw) =>
    setKey "items"
      (PyVal.plist (raw.filterMap
        (fun x => match x with
          | PyVal.pdict kv => some (PyVal.pdict (normItem kv))
          | _ => Option.none)))
      d
  | _ => d

/-- Apply a cleaner to the field `k` when it is present and truthy
(`if k in data and data[k]: data[k] = clean(data[k])`). -/
def cleanFieldWith (k : String) (f : PyVal → PyVal) (d : List (String × PyVal)) :
    List (String × PyVal) :=
  match getKey? k d with
  | some v => if pyTruthy v then setKey k (f v) d else d
  | Option.none => d

/-- `_clean_tax_number` applied to a raw value (`str(value)` first). -/
def cleanDigitsV (v : PyVal) : PyVal :=
  if !pyTruthy v then PyVal.pnone
  else
    let cleaned := (pyStr v).toList.filter (fun c => (decDigitVal? c).isSome)
    if cleaned.isEmpty then PyVal.pnone else PyVal.pstr (String.mk cleaned)

/-- `_clean_phone_number` applied to a raw value. -/
def cleanPhoneV (v : PyVal) : PyVal :=
  if !pyTruthy v then PyVal.pnone
  else
    let noSep := (pyStr v).toList.filter
      (fun c => !(pyIsSpace c || c == '-' || c == '(' || c == ')'))
    let cleaned := noSep.filter (fun c => (decDigitVal? c).isSome)
    if cleaned.isEmpty then PyVal.pnone else PyVal.pstr (String.mk cleaned)

/-- `_clean_invoice_type` / `_clean_city` applied to a raw value. -/
def cleanStripV (v : PyVal) : PyVal :=
  if !pyTruthy v then PyVal.pnone
  else
    let s := pyStrip (pyStr v)
    if s = "" then PyVal.pnone else PyVal.pstr s

/-- The `seller_invoice_number` cleanup: when the value is a truthy string,
replace it with its first digit run when one exists. -/
def cleanSellerInvoiceNumber (d : List (String × PyVal)) : List (String × PyVal) :=
  match getKey? "seller_invoice_number" d with
  | some v =>
    if pyTruthy v then
      match v with
      | PyVal.pstr s =>
        (match digitRuns s with
          | r :: _ => setKey "seller_invoice_number" (PyVal.pstr (String.mk r)) d
          | [] => d)
      | _ => d
    else d
  | Option.none => d

/-- `ai._post_process_extracted_data`: alias resolution, English synonyms,
item-list canonicalisation, then per-field cleaning, in source order.
Non-dict input returns an empty dict. -/
def _post_process_extracted_data (data : PyVal) : PyVal :=
  match data with
  | PyVal.pdict kvs =>
    let d1 := aliasStage kvs
    let d2 := synonymStage d1
    let d3 := itemsStage d2
    let d4 := cleanFieldWith "tax_number" cleanDigitsV d3
    let d5 := cleanFieldWith "income_source_sequence" cleanDigitsV d4
    let d6 := cleanSellerInvoiceNumber d5
    let d7 := cleanFieldWith "invoice_type" cleanStripV d6
    let d8 := cleanFieldWith "phone_number" cleanPhoneV d7
    let d9 := cleanFieldWith "city" cleanStripV d8
    PyVal.pdict d9
  | _ => PyVal.pdict []

example :
    _post_process_extracted_data
      (PyVal.pdict [("الرقم الضريبي", PyVal.pstr "48-83"), ("items", PyVal.pint 3)]) =
    PyVal.pdict [("الرقم الضريبي", PyVal.pstr "48-83"), ("items", PyVal.pint 3),
      ("tax_number", PyVal.pstr "4883")] := by rfl

/-! ## Invoice records (`ai.InvoiceItem`, `ai.InvoiceData`) -/

/-- The `tax_rate` field of an item (`Optional[Any]`: a number or a string
such as `"16%"` / `"exempt"` / `"معفى"`, or absent). -/
inductive TaxRateV where
  | rnone : TaxRateV
  | rstr : String → TaxRateV
  | rnum : Dec → TaxRateV
deriving DecidableEq, Repr

/-- `ai.InvoiceItem`. -/
@[ext] structure InvoiceItem where
  description : Option String := Option.none
  quantity : Option Dec := Option.none
  unit_price : Option Dec := Option.none
  amount : Option Dec := Option.none
  discount : Option Dec := Option.none
  line_subtotal : Option Dec := Option.none
  tax_rate : TaxRateV := TaxRateV.rnone
  tax_amount : Option Dec := Option.none
  line_total : Option Dec := Option.none
deriving DecidableEq, Repr

/-- `ai.InvoiceData`. -/
@[ext] structure InvoiceData where
  commercial_name : Option String := Option.none
  tax_number : Option String := Option.none
  income_source_sequence : Option String := Option.none
  electronic_invoice_number : Option String := Option.none
  seller_invoice_number : Option String := Option.none
  invoice_date : Option String := Option.none
  invoice_type : Option String := Option.none
  currency : Option String := Option.none
  buyer_name : Option String := Option.none
  buyer_number : Option String := Option.none
  phone_number : Option String := Option.none
  city : Option String := Option.none
  items : List InvoiceItem := []
  total_discount : Option Dec := Option.none
  grand_total : Option Dec := Option.none
  invoice_number : Option String := Option.none
  customer_name : Option String := Option.none
  seller_name : Option String := Option.none
  subtotal : Option Dec := Option.none
  total_tax : Option Dec := Option.none
deriving DecidableEq, Repr

/-! ## `ai._clean_item_description` -/

/-- The trailing run of `\d` digits of a token (the `(\d+)$` group of
`re.match(r"^(.*?)(\d+)$", last)`, which is greedy from the right). -/
def trailingDigitsOf (cs : List Char) : List Char :=
  (cs.reverse.takeWhile (fun c => (decDigitVal? c).isSome)).reverse

/-- Step 1 of `_clean_item_description`: when the last token ends in digits
whose integer value lies in `1..9`, strip that suffix (and drop the token
entirely when nothing remains). -/
def stripRowIdxSuffix (parts : List String) : List String :=
  match parts.getLast? with
  | Option.none => parts
  | some last =>
    let ds := trailingDigitsOf last.toList
    if ds.isEmpty then parts
    else
      match digitsVal? ds with
      | some v =>
        if 1 ≤ v ∧ v ≤ 9 then
          let core := String.mk (last.toList.take (last.toList.length - ds.length))
          (parts.dropLast ++ [core]).filter (fun t => t ≠ "")
        else parts
      | Option.none => parts

/-- The greedy-with-backtracking split of `re.match(r"^([0-9\.,]+)(.+)$", first)`:
the longest prefix of characters from the class `[0-9.,]` that still leaves
at least one character for the second group. -/
def numericLeadSplit (cs : List Char) : Option (List Char × List Char) :=
  let pre := cs.takeWhile
    (fun c => (0x30 ≤ c.toNat ∧ c.toNat ≤ 0x39) || c == '.' || c == ',')
  if pre.isEmpty then Option.none
  else if pre.length = cs.length then
    if 2 ≤ cs.length then some (cs.take (cs.length - 1), cs.drop (cs.length - 1))
    else Option.none
  else some (pre, cs.drop pre.length)

/-- Step 2 of `_clean_item_description`: strip a numeric prefix glued to
the first token when its parsed value matches the item quantity within
`0.01`. -/
def stripQuantityLead (parts : List String) (quantity : Option Dec) : List String :=
  match quantity, parts with
  | some qv, first :: rest =>
    (match numericLeadSplit first.toList with
      | some (numStr, restStr) =>
        (match extract_number (some (String.mk numStr)) with
          | some nv =>
            if Dec.closeTo nv qv then
              (String.mk restStr :: rest).filter (fun t => t ≠ "")
            else parts
          | Option.none => parts)
      | Option.none => parts)
  | _, _ => parts

/-- `ai._clean_item_description`: conservative removal of a glued trailing
row index (1–9) and of a glued leading duplicate of the quantity; falls
back to the original description when cleaning empties the string. -/
def _clean_item_description (description : Option String) (quantity : Option Dec) :
    Option String :=
  match description with
  | Option.none => Option.none
  | some d =>
    if d = "" then some d
    else
      let s := pyStrip d
      if s = "" then some d
      else
        let parts := pySplit s
        let parts1 := stripRowIdxSuffix parts
        let parts2 := stripQuantityLead parts1 quantity
        let cleaned := pyStrip (joinSpace parts2)
        if cleaned = "" then some d else some cleaned

example : _clean_item_description (some "a1 2") Option.none = some "a1" := by decide
example : _clean_item_description (some "a1") Option.none = some "a" := by decide
example :
    _clean_item_description (some "43.000ساعات عمل") (some ⟨43, 0⟩) = some "ساعات عمل" := by
  decide
example :
    _clean_item_description (some "25 طن 26 يوم شهر 8") Option.none =
      some "25 طن 26 يوم شهر" := by decide

/-! ## `ai._post_process_invoice_data` (the Line-Item Completer) -/

/-- The `tax_rate` cleanup: the `"exempt"` sentinel for strings containing
`exempt` (case-insensitive) or `معفى`, numeric extraction for strings such
as `"16%"`, numbers coerced to float. -/
def cleanTaxRateV : TaxRateV → TaxRateV
  | TaxRateV.rnone => TaxRateV.rnone
  | TaxRateV.rstr s =>
    if strContainsStr (lowerStr s) "exempt" || strContainsStr s "معفى" then
      TaxRateV.rstr "exempt"
    else
      (match extract_number (some s) with
        | some q => TaxRateV.rnum q
        | Option.none => TaxRateV.rstr s)
  | TaxRateV.rnum q => TaxRateV.rnum q

/-- Backfill `quantity * unit_price` into an absent field (used for both
`amount` and `line_subtotal`). -/
def backfillProd (cur q up : Option Dec) : Option Dec :=
  match cur, q, up with
  | Option.none, some qv, some upv => some (Dec.mul qv upv)
  | c, _, _ => c

/-- Backfill `line_total` from `line_subtotal - (discount or 0) + tax_amount`
(the tax term only when present). -/
def backfillLineTotal (cur lsub discount tax : Option Dec) : Option Dec :=
  match cur, lsub with
  | Option.none, some ls =>
    (match tax with
      | some t => some (Dec.add (Dec.sub ls (discount.getD (Dec.ofInt 0))) t)
      | Option.none => some (Dec.sub ls (discount.getD (Dec.ofInt 0))))
  | c, _ => c

/-- The per-item body of the loop in `_post_process_invoice_data`:
description cleanup, `tax_rate` cleanup, then the three numeric backfills
(`line_total` reads the possibly backfilled `line_subtotal`).  The
`float(...)` coercions of the source are identities in the exact-decimal
model. -/
def processItem (it : InvoiceItem) : InvoiceItem :=
  let lsub := backfillProd it.line_subtotal it.quantity it.unit_price
  { description := _clean_item_description it.description it.quantity
    quantity := it.quantity
    unit_price := it.unit_price
    amount := backfillProd it.amount it.quantity it.unit_price
    discount := it.discount
    line_subtotal := lsub
    tax_rate := cleanTaxRateV it.tax_rate
    tax_amount := it.tax_amount
    line_total := backfillLineTotal it.line_total lsub it.discount it.tax_amount }

/-- Sum of the present `line_subtotal` fields. -/
def sumLineSubtotals (items : List InvoiceItem) : Dec :=
  Dec.sum (items.filterMap (fun it => it.line_subtotal))

/-- Sum of the present `tax_amount` fields. -/
def sumTaxAmounts (items : List InvoiceItem) : Dec :=
  Dec.sum (items.filterMap (fun it => it.tax_amount))

/-- Sum of the present `line_total` fields. -/
def sumLineTotals (items : List InvoiceItem) : Dec :=
  Dec.sum (items.filterMap (fun it => it.line_total))

/-- The item-processing pass of `_post_process_invoice_data`. -/
def mapItemsStage (inv : InvoiceData) : InvoiceData :=
  { inv with items := inv.items.map processItem }

/-- Backfill of the invoice-level `subtotal` from the items, gated on a
strictly positive sum (`if invoice_data.subtotal is None: ... if
calculated_subtotal > 0: invoice_data.subtotal = calculated_subtotal`,
written as the net effect on the `subtotal` field). -/
def fillSubtotal (inv : InvoiceData) : InvoiceData :=
  { inv with
    subtotal :=
      match inv.subtotal with
      | some s => some s
      | Option.none =>
        let s := sumLineSubtotals inv.items
        if s.isPos then some s else Option.none }

/-- Backfill of the invoice-level `total_tax` from the items, gated on a
strictly positive sum. -/
def fillTotalTax (inv : InvoiceData) : InvoiceData :=
  { inv with
    total_tax :=
      match inv.total_tax with
      | some t => some t
      | Option.none =>
        let s := sumTaxAmounts inv.items
        if s.isPos then some s else Option.none }

/-- Backfill of `grand_total`: `subtotal + total_tax` when both are
present, else `subtotal` alone, else (when only `total_tax` is present)
the strictly positive sum of the items' `line_total`. -/
def fillGrandTotal (inv : InvoiceData) : InvoiceData :=
  { inv with
    grand_total :=
      match inv.grand_total with
      | some g => some g
      | Option.none =>
        match inv.subtotal, inv.total_tax with
        | some s, some t => some (Dec.add s t)
        | some s, Option.none => some s
        | Option.none, some _ =>
          let c := sumLineTotals inv.items
          if c.isPos then some c else Option.none
        | Option.none, Option.none => Option.none }

/-- `ai._post_process_invoice_data`: per-item cleanup and backfill, then
the three invoice-level total backfills, in source order.  The final
`float(...)` coercions of the totals are identities in the exact-decimal
model. -/
def _post_process_invoice_data (inv : InvoiceData) : InvoiceData :=
  fillGrandTotal (fillTotalTax (fillSubtotal (mapItemsStage inv)))

example :
    _post_process_invoice_data
      { items := [{ quantity := some ⟨2, 0⟩, unit_price := some ⟨50, 0⟩,
                    discount := some ⟨0, 0⟩ }] } =
    { items := [{ quantity := some ⟨2, 0⟩, unit_price := some ⟨50, 0⟩,
                  discount := some ⟨0, 0⟩, amount := some ⟨100, 0⟩,
                  line_subtotal := some ⟨100, 0⟩, line_total := some ⟨100, 0⟩ }],
      subtotal := some ⟨100, 0⟩, grand_total := some ⟨100, 0⟩ } := by decide

/-! ## `ai._find_description_from_lines_for_item` (Description Aligner) -/

/-- The `(token index, numeric value)` pairs of a token list
(`num_positions` in the source). -/
def numPositionsOf (tokens : List String) : List (Nat × Dec) :=
  tokens.enum.filterMap
    (fun p => (extract_number (some p.2)).map (fun d => (p.1, d)))

/-- One window attempt of the numeric-anchor search: merge the window's
lines with single spaces, tokenize, and look for a contiguous run of
numeric tokens matching the five target values within `0.01`; on success
the tokens before the first matched numeric token, provided they are
nonempty. -/
def tryWindow (lines : List String) (target : List Dec) (startLine ws : Nat) :
    Option String :=
  let windowLines := (lines.drop startLine).take ws
  let merged := pyStrip (joinSpace windowLines)
  if merged = "" then Option.none
  else
    let tokens := pySplit merged
    let numPositions := numPositionsOf tokens
    if numPositions.length < target.length then Option.none
    else
      (List.range (numPositions.length - target.length + 1)).findSome?
        (fun start =>
          let slice := (numPositions.drop start).take target.length
          if (slice.zip target).all (fun p => Dec.closeTo p.1.2 p.2) then
            match slice.head? with
            | some fst =>
              let descTokens := tokens.take fst.1
              let description := pyStrip (joinSpace descTokens)
              if description = "" then Option.none else some description
            | Option.none => Option.none
          else Option.none)

/-- The numeric-anchor search over sliding windows of 1–3 consecutive
lines. -/
def searchWindows (lines : List String) (target : List Dec) : Option String :=
  (List.range lines.length).findSome?
    (fun startLine =>
      (List.range 3).findSome?
        (fun w =>
          if lines.length < startLine + (w + 1) then Option.none
          else tryWindow lines target startLine (w + 1)))

/-- The non-numeric tokens of a string (`tokens_no_numbers` in the source). -/
def tokensNoNumbers (s : String) : List String :=
  (pySplit s).filter (fun tok => extract_number (some tok) = Option.none)

/-- The bag-of-words fallback: find a line whose non-numeric tokens contain
every non-numeric token of the inference-produced description, and return
that line verbatim (stripped). -/
def bagFallback (lines : List String) (originalDesc : String) : Option String :=
  if originalDesc = "" then Option.none
  else
    let targetTokens := tokensNoNumbers originalDesc
    if targetTokens.isEmpty then Option.none
    else
      lines.findSome?
        (fun line =>
          let lineTokens := tokensNoNumbers line
          if lineTokens.isEmpty then Option.none
          else if targetTokens.all (fun t => lineTokens.contains t) then
            some (pyStrip line)
          else Option.none)

/-- `ai._find_description_from_lines_for_item`: numeric-anchor search when
all five key numbers are present, then the bag-of-words fallback. -/
def _find_description_from_lines_for_item (lines : List String)
    (item : InvoiceItem) : Option String :=
  let originalDesc := pyStrip (item.description.getD "")
  let numericResult :=
    match item.quantity, item.unit_price, item.amount, item.discount,
        item.line_total with
    | some q, some up, some a, some d, some lt =>
      searchWindows lines [q, up, a, d, lt]
    | _, _, _, _, _ => Option.none
  match numericResult with
  | some desc => some desc
  | Option.none => bagFallback lines originalDesc

/-- `ai._align_descriptions_with_pdf_lines`: replace each item's
description by the aligned one when the aligner returns a truthy string. -/
def _align_descriptions_with_pdf_lines (invoiceData : InvoiceData)
    (lines : List String) : InvoiceData :=
  if lines.isEmpty || invoiceData.items.isEmpty then invoiceData
  else
    { invoiceData with
      items := invoiceData.items.map
        (fun item =>
          match _find_description_from_lines_for_item lines item with
          | some desc =>
            if desc = "" then item else { item with description := some desc }
          | Option.none => item) }

/-! ## `ai._is_valid_extraction` (validity filter) -/

/-- The `fake_patterns` list of `_is_valid_extraction`, in source order. -/
def fakePatterns : List String :=
  ["INV123", "12345", "XYZ", "Corporation", "Company", "Test",
   "Sample", "Example", "Demo", "Placeholder"]

/-- Truthiness of an optional string. -/
def optStrTruthy : Option String → Bool
  | Option.none => false
  | some s => s ≠ ""

/-- Python's `a or b` on optional strings. -/
def pyOrOptStr (a b : Option String) : Option String :=
  if optStrTruthy a then a else b

/-- Does the lower-cased string contain a lower-cased placeholder pattern? -/
def hasFakePattern (s : String) : Bool :=
  fakePatterns.any (fun p => strContainsStr (lowerStr s) (lowerStr p))

/-- `ai._is_valid_extraction`: reject on a placeholder pattern in the
resolved invoice number or buyer name; reject when there is no identifier,
no buyer name, no item and no grand total; accept otherwise. -/
def _is_valid_extraction (inv : InvoiceData) : Bool :=
  let invoiceNum :=
    pyOrOptStr (pyOrOptStr inv.electronic_invoice_number inv.seller_invoice_number)
      inv.invoice_number
  let buyerName := pyOrOptStr inv.buyer_name inv.customer_name
  if optStrTruthy invoiceNum && hasFakePattern (invoiceNum.getD "") then false
  else if optStrTruthy buyerName && hasFakePattern (buyerName.getD "") then false
  else
    let hasItems := !inv.items.isEmpty
    let hasGrandTotal := inv.grand_total.isSome
    if !(optStrTruthy invoiceNum || optStrTruthy buyerName || hasItems ||
        hasGrandTotal) then false
    else true

example : _is_valid_extraction { electronic_invoice_number := some "Sample123" } = false := by
  decide
example :
    _is_valid_extraction
      { items := [{ description := some "x" }], grand_total := some ⟨750, 1⟩ } = true := by
  decide
example : _is_valid_extraction {} = false := by decide

/-! ## Characterisation of the completer's invoice-level output -/

/-- The invoice-level `subtotal` after the completer: kept when present,
else the strictly positive sum of the processed items' `line_subtotal`. -/
def subtotalAfter (inv : InvoiceData) : Option Dec :=
  match inv.subtotal with
  | some s => some s
  | Option.none =>
    if (sumLineSubtotals (inv.items.map processItem)).isPos then
      some (sumLineSubtotals (inv.items.map processItem))
    else Option.none

/-- The invoice-level `total_tax` after the completer. -/
def totalTaxAfter (inv : InvoiceData) : Option Dec :=
  match inv.total_tax with
  | some t => some t
  | Option.none =>
    if (sumTaxAmounts (inv.items.map processItem)).isPos then
      some (sumTaxAmounts (inv.items.map processItem))
    else Option.none

/-- The invoice-level `grand_total` after the completer. -/
def grandTotalAfter (inv : InvoiceData) : Option Dec :=
  match inv.grand_total with
  | some g => some g
  | Option.none =>
    match subtotalAfter inv, totalTaxAfter inv with
    | some s, some t => some (Dec.add s t)
    | some s, Option.none => some s
    | Option.none, some _ =>
      if (sumLineTotals (inv.items.map processItem)).isPos then
        some (sumLineTotals (inv.items.map processItem))
      else Option.none
    | Option.none, Option.none => Option.none

/-- The completer only rewrites `items`, `subtotal`, `total_tax` and
`grand_total`, in the way described by the three `...After` functions. -/
theorem post_process_shape (inv : InvoiceData) :
    _post_process_invoice_data inv =
      { inv with
        items := inv.items.map processItem
        subtotal := subtotalAfter inv
        total_tax := totalTaxAfter inv
        grand_total := grandTotalAfter inv } := by
  rfl

/-- Projection of the shape lemma: the completer's items. -/
theorem pp_items (inv : InvoiceData) :
    (_post_process_invoice_data inv).items = inv.items.map processItem := by
  rw [post_process_shape]

/-- Projection of the shape lemma: the completer's subtotal. -/
theorem pp_subtotal (inv : InvoiceData) :
    (_post_process_invoice_data inv).subtotal = subtotalAfter inv := by
  rw [post_process_shape]

/-- Projection of the shape lemma: the completer's total tax. -/
theorem pp_total_tax (inv : InvoiceData) :
    (_post_process_invoice_data inv).total_tax = totalTaxAfter inv := by
  rw [post_process_shape]

/-- Projection of the shape lemma: the completer's grand total. -/
theorem pp_grand_total (inv : InvoiceData) :
    (_post_process_invoice_data inv).grand_total = grandTotalAfter inv := by
  rw [post_process_shape]

/-! ## Stability of the completer under re-application -/

/-- The `amount` / `line_subtotal` backfill is idempotent: every backfill
is guarded by an absence check. -/
theorem backfillProd_idem (cur q up : Option Dec) :
    backfillProd (backfillProd cur q up) q up = backfillProd cur q up := by
  cases cur <;> cases q <;> cases up <;> rfl

/-- The `line_total` backfill is idempotent. -/
theorem backfillLineTotal_idem (cur ls d t : Option Dec) :
    backfillLineTotal (backfillLineTotal cur ls d t) ls d t =
      backfillLineTotal cur ls d t := by
  cases cur <;> cases ls <;> cases t <;> rfl

/-- The `tax_rate` cleanup is idempotent. -/
theorem cleanTaxRateV_idem (r : TaxRateV) :
    cleanTaxRateV (cleanTaxRateV r) = cleanTaxRateV r := by
  cases r with
  | rnone => rfl
  | rnum q => rfl
  | rstr s =>
    simp only [cleanTaxRateV]
    by_cases h :
        (strContainsStr (lowerStr s) "exempt" || strContainsStr s "معفى") = true
    · rw [if_pos h]; decide
    · rw [if_neg h]
      cases he : extract_number (some s) with
      | none =>
        show cleanTaxRateV (TaxRateV.rstr s) = TaxRateV.rstr s
        simp only [cleanTaxRateV]
        rw [if_neg h, he]
      | some q =>
        show cleanTaxRateV (TaxRateV.rnum q) = TaxRateV.rnum q
        rfl

/-- `line_total` of a twice-processed item equals that of the
once-processed item. -/
theorem processItem_line_total_stable (it : InvoiceItem) :
    (processItem (processItem it)).line_total = (processItem it).line_total := by
  show backfillLineTotal
      (backfillLineTotal it.line_total
        (backfillProd it.line_subtotal it.quantity it.unit_price)
        it.discount it.tax_amount)
      (backfillProd (backfillProd it.line_subtotal it.quantity it.unit_price)
        it.quantity it.unit_price)
      it.discount it.tax_amount =
    backfillLineTotal it.line_total
      (backfillProd it.line_subtotal it.quantity it.unit_price)
      it.discount it.tax_amount
  rw [backfillProd_idem]
  exact backfillLineTotal_idem _ _ _ _

/-- Forget an item's description. -/
def eraseDesc (it : InvoiceItem) : InvoiceItem := { it with description := Option.none }

/-- Processing an item twice agrees with processing it once on every field
except (possibly) the description. -/
theorem processItem_stable (it : InvoiceItem) :
    eraseDesc (processItem (processItem it)) = eraseDesc (processItem it) := by
  have ha : (processItem (processItem it)).amount = (processItem it).amount :=
    backfillProd_idem it.amount it.quantity it.unit_price
  have hl : (processItem (processItem it)).line_subtotal = (processItem it).line_subtotal :=
    backfillProd_idem it.line_subtotal it.quantity it.unit_price
  have ht : (processItem (processItem it)).line_total = (processItem it).line_total :=
    processItem_line_total_stable it
  have hr : (processItem (processItem it)).tax_rate = (processItem it).tax_rate :=
    cleanTaxRateV_idem it.tax_rate
  apply InvoiceItem.ext <;> first | rfl | simp [eraseDesc, ha, hl, ht, hr]

/-- Description-erased items of the second pass equal those of the first. -/
theorem listEraseStable (l : List InvoiceItem) :
    ((l.map processItem).map processItem).map eraseDesc =
      (l.map processItem).map eraseDesc := by
  induction l with
  | nil => rfl
  | cons a t ih => simp only [List.map_cons, processItem_stable a, ih]

/-- The `line_subtotal` values of the second pass equal those of the first. -/
theorem filterMap_lsub_stable (l : List InvoiceItem) :
    ((l.map processItem).map processItem).filterMap (fun it => it.line_subtotal) =
      (l.map processItem).filterMap (fun it => it.line_subtotal) := by
  induction l with
  | nil => rfl
  | cons a t ih =>
    have h : (processItem (processItem a)).line_subtotal = (processItem a).line_subtotal :=
      backfillProd_idem a.line_subtotal a.quantity a.unit_price
    simp only [List.map_cons, List.filterMap_cons, h, ih]

/-- The `tax_amount` values of the second pass equal those of the first. -/
theorem filterMap_tax_stable (l : List InvoiceItem) :
    ((l.map processItem).map processItem).filterMap (fun it => it.tax_amount) =
      (l.map processItem).filterMap (fun it => it.tax_amount) := by
  induction l with
  | nil => rfl
  | cons a t ih =>
    have h : (processItem (processItem a)).tax_amount = (processItem a).tax_amount := rfl
    simp only [List.map_cons, List.filterMap_cons, h, ih]

/-- The `line_total` values of the second pass equal those of the first. -/
theorem filterMap_ltot_stable (l : List InvoiceItem) :
    ((l.map processItem).map processItem).filterMap (fun it => it.line_total) =
      (l.map processItem).filterMap (fun it => it.line_total) := by
  induction l with
  | nil => rfl
  | cons a t ih =>
    simp only [List.map_cons, List.filterMap_cons, processItem_line_total_stable a, ih]

/-- Subtotal backfill decision is unchanged by a second pass. -/
theorem subtotalAfter_pp (inv : InvoiceData) :
    subtotalAfter (_post_process_invoice_data inv) = subtotalAfter inv := by
  have hsum : sumLineSubtotals ((_post_process_invoice_data inv).items.map processItem) =
      sumLineSubtotals (inv.items.map processItem) := by
    rw [pp_items inv]
    unfold sumLineSubtotals
    rw [filterMap_lsub_stable inv.items]
  unfold subtotalAfter
  rw [pp_subtotal inv, hsum]
  unfold subtotalAfter
  cases hs : inv.subtotal with
  | some s => rfl
  | none =>
    cases hp : (sumLineSubtotals (inv.items.map processItem)).isPos <;> simp

/-- Tax backfill decision is unchanged by a second pass. -/
theorem totalTaxAfter_pp (inv : InvoiceData) :
    totalTaxAfter (_post_process_invoice_data inv) = totalTaxAfter inv := by
  have hsum : sumTaxAmounts ((_post_process_invoice_data inv).items.map processItem) =
      sumTaxAmounts (inv.items.map processItem) := by
    rw [pp_items inv]
    unfold sumTaxAmounts
    rw [filterMap_tax_stable inv.items]
  unfold totalTaxAfter
  rw [pp_total_tax inv, hsum]
  unfold totalTaxAfter
  cases ht : inv.total_tax with
  | some t => rfl
  | none =>
    cases hp : (sumTaxAmounts (inv.items.map processItem)).isPos <;> simp

/-- Grand-total backfill decision is unchanged by a second pass. -/
theorem grandTotalAfter_pp (inv : InvoiceData) :
    grandTotalAfter (_post_process_invoice_data inv) = grandTotalAfter inv := by
  have hsum : sumLineTotals ((_post_process_invoice_data inv).items.map processItem) =
      sumLineTotals (inv.items.map processItem) := by
    rw [pp_items inv]
    unfold sumLineTotals
    rw [filterMap_ltot_stable inv.items]
  unfold grandTotalAfter
  rw [pp_grand_total inv, subtotalAfter_pp inv, totalTaxAfter_pp inv, hsum]
  unfold grandTotalAfter
  cases hg : inv.grand_total with
  | some g => rfl
  | none =>
    cases hsub : subtotalAfter inv with
    | some s => cases htax : totalTaxAfter inv <;> rfl
    | none =>
      cases htax : totalTaxAfter inv with
      | some t =>
        cases hp : (sumLineTotals (inv.items.map processItem)).isPos <;> simp
      | none => rfl

/-- Forget the descriptions of all items of a record. -/
def eraseDescs (inv : InvoiceData) : InvoiceData :=
  { inv with items := inv.items.map eraseDesc }

/-- C1 (as stated, refuted): the Line-Item Completer is not idempotent.
For the single item whose description is `"a1 2"`, the first pass strips
the trailing row index `2` (leaving `"a1"`) and the second pass strips the
newly exposed trailing `1` (leaving `"a"`), so re-applying the completer
changes the item's description. -/
theorem counterexample_C1 :
    _post_process_invoice_data
        (_post_process_invoice_data { items := [{ description := some "a1 2" }] }) ≠
      _post_process_invoice_data { items := [{ description := some "a1 2" }] } := by
  decide

/-- C1 (amended): the Line-Item Completer is idempotent on every field of
the record and of its items except the item descriptions: applying it to
its own output changes no numeric field, no tax rate, no total and no
other record field; only an item description can change again (the
trailing row-index strip can expose a further digit suffix). -/
theorem claim_C1 (inv : InvoiceData) :
    eraseDescs (_post_process_invoice_data (_post_process_invoice_data inv)) =
      eraseDescs (_post_process_invoice_data inv) := by
  unfold eraseDescs
  have hitems :
      (_post_process_invoice_data (_post_process_invoice_data inv)).items.map eraseDesc =
        (_post_process_invoice_data inv).items.map eraseDesc := by
    rw [pp_items (_post_process_invoice_data inv), pp_items inv]
    exact listEraseStable inv.items
  have hsub :
      (_post_process_invoice_data (_post_process_invoice_data inv)).subtotal =
        (_post_process_invoice_data inv).subtotal := by
    rw [pp_subtotal (_post_process_invoice_data inv), subtotalAfter_pp inv,
      ← pp_subtotal inv]
  have htax :
      (_post_process_invoice_data (_post_process_invoice_data inv)).total_tax =
        (_post_process_invoice_data inv).total_tax := by
    rw [pp_total_tax (_post_process_invoice_data inv), totalTaxAfter_pp inv,
      ← pp_total_tax inv]
  have hgrand :
      (_post_process_invoice_data (_post_process_invoice_data inv)).grand_total =
        (_post_process_invoice_data inv).grand_total := by
    rw [pp_grand_total (_post_process_invoice_data inv), grandTotalAfter_pp inv,
      ← pp_grand_total inv]
  apply InvoiceData.ext <;>
    first
    | rfl
    | exact hitems
    | exact hsub
    | exact htax
    | exact hgrand

/-- C2 (as stated, refuted): on the source line
`"3 قطعة منتج أ 10.00 30.00 0.00 30.00"` and the item with quantity 3,
unit price 10, amount 30, discount 0 and line total 30 (and the
inference-produced description `"قطعة منتج أ"`), the aligner does NOT
return `"قطعة منتج أ"`: the five numbers do match a contiguous numeric
run, but its first number is the line's first token, so the candidate
description is empty and the numeric anchor is rejected; the bag-of-words
fallback then returns the entire line verbatim. -/
theorem counterexample_C2 :
    _find_description_from_lines_for_item ["3 قطعة منتج أ 10.00 30.00 0.00 30.00"]
        { description := some "قطعة منتج أ", quantity := some ⟨3, 0⟩,
          unit_price := some ⟨10, 0⟩, amount := some ⟨30, 0⟩,
          discount := some ⟨0, 0⟩, line_total := some ⟨30, 0⟩ } =
      some "3 قطعة منتج أ 10.00 30.00 0.00 30.00" ∧
    "3 قطعة منتج أ 10.00 30.00 0.00 30.00" ≠ "قطعة منتج أ" := by
  constructor
  · decide
  · decide

/-- C2 (amended): for that source line and item the Description Aligner
returns the full source line `"3 قطعة منتج أ 10.00 30.00 0.00 30.00"`
verbatim (through the bag-of-words fallback), not the token span
`"قطعة منتج أ"`: the numeric-anchor path matches but its candidate
description (the tokens preceding the first matched number) is empty
because the quantity is the line's first token. -/
theorem claim_C2 :
    (_align_descriptions_with_pdf_lines
        { items := [{ description := some "قطعة منتج أ", quantity := some ⟨3, 0⟩,
                      unit_price := some ⟨10, 0⟩, amount := some ⟨30, 0⟩,
                      discount := some ⟨0, 0⟩, line_total := some ⟨30, 0⟩ }] }
        ["3 قطعة منتج أ 10.00 30.00 0.00 30.00"]).items.map
        (fun it => it.description) =
      [some "3 قطعة منتج أ 10.00 30.00 0.00 30.00"] := by
  decide

/-- C4: for an item with quantity 2, unit price 50, discount 0 and the
three monetary fields absent, the completer produces amount, line subtotal
and line total all equal to the decimal 100, whose value is the float
`100.0`. -/
theorem claim_C4 :
    (_post_process_invoice_data
          { items := [{ quantity := some (Dec.ofInt 2),
                        unit_price := some (Dec.ofInt 50),
                        discount := some (Dec.ofInt 0) }] }).items.map
        (fun it => (it.amount, it.line_subtotal, it.line_total)) =
      [(some (Dec.ofInt 100), some (Dec.ofInt 100), some (Dec.ofInt 100))] ∧
    Dec.toRat (Dec.ofInt 100) = 100 := by
  constructor
  · decide
  · norm_num [Dec.toRat, Dec.ofInt]

/-- C8: the validity filter rejects an extraction whose electronic invoice
number is `"Sample123"` (placeholder pattern `"Sample"`), and accepts an
extraction without identifiers and buyer name that has one line item and
a grand total of value 75. -/
theorem claim_C8 :
    _is_valid_extraction { electronic_invoice_number := some "Sample123" } = false ∧
    _is_valid_extraction { items := [{}], grand_total := some ⟨750, 1⟩ } = true ∧
    Dec.toRat ⟨750, 1⟩ = 75 := by
  refine ⟨by decide, by decide, ?_⟩
  norm_num [Dec.toRat]

/-! ## Preservation lemmas for the Field Reconciler -/

/-- Looking up a key that is present in the left part of an appended dict
ignores the appended bindings. -/
theorem getKey?_append_of_present (k : String) (d l : List (String × PyVal))
    (hk : hasKey k d = true) : getKey? k (d ++ l) = getKey? k d := by
  induction d with
  | nil => exact Bool.noConfusion hk
  | cons p t ih =>
    cases hp : (p.1 == k) with
    | true =>
      unfold getKey?
      simp only [List.cons_append, List.find?, hp]
    | false =>
      have hk' : hasKey k t = true := by
        have h2 : (p.1 == k) = true ∨ List.any t (fun q => q.1 == k) = true := by
          simpa [hasKey, List.any_cons] using hk
        rcases h2 with h | h
        · rw [hp] at h; exact absurd h (by decide)
        · exact h
      unfold getKey?
      simp only [List.cons_append, List.find?, hp]
      exact ih hk'

/-- Presence of a key survives appending. -/
theorem hasKey_append_left (k : String) (d l : List (String × PyVal))
    (hk : hasKey k d = true) : hasKey k (d ++ l) = true := by
  unfold hasKey at *
  rw [List.any_append, hk]
  rfl

/-- Writing an absent key does not change the value of any present key. -/
theorem getKey?_setKey_absent (k k' : String) (v : PyVal) (d : List (String × PyVal))
    (hk : hasKey k d = true) (hk' : hasKey k' d = false) :
    getKey? k (setKey k' v d) = getKey? k d := by
  unfold setKey
  rw [hk']
  simp only [Bool.false_eq_true, if_false]
  exact getKey?_append_of_present k d [(k', v)] hk

/-- Writing an absent key keeps every present key present. -/
theorem hasKey_setKey_absent (k k' : String) (v : PyVal) (d : List (String × PyVal))
    (hk : hasKey k d = true) (hk' : hasKey k' d = false) :
    hasKey k (setKey k' v d) = true := by
  unfold setKey
  rw [hk']
  simp only [Bool.false_eq_true, if_false]
  exact hasKey_append_left k d [(k', v)] hk

/-- The alias-resolution fold preserves the value (and presence) of every
key already present. -/
theorem aliasFold_preserves (ps : List (String × String)) (d : List (String × PyVal))
    (k : String) (hk : hasKey k d = true) :
    getKey? k
        (ps.foldl
          (fun d p =>
            if hasKey p.1 d && !hasKey p.2 d then setKey p.2 (dictGet p.1 d) d else d)
          d) =
      getKey? k d ∧
    hasKey k
        (ps.foldl
          (fun d p =>
            if hasKey p.1 d && !hasKey p.2 d then setKey p.2 (dictGet p.1 d) d else d)
          d) =
      true := by
  induction ps generalizing d with
  | nil => exact ⟨rfl, hk⟩
  | cons p ps ih =>
    simp only [List.foldl_cons]
    by_cases hc : (hasKey p.1 d && !hasKey p.2 d) = true
    · rw [if_pos hc]
      have hk2 : hasKey p.2 d = false := by
        have h2 : hasKey p.1 d = true ∧ hasKey p.2 d = false := by simpa using hc
        exact h2.2
      have h1 := getKey?_setKey_absent k p.2 (dictGet p.1 d) d hk hk2
      have h2 := hasKey_setKey_absent k p.2 (dictGet p.1 d) d hk hk2
      obtain ⟨ha, hb⟩ := ih (setKey p.2 (dictGet p.1 d) d) h2
      exact ⟨ha.trans h1, hb⟩
    · rw [if_neg hc]
      exact ih d hk

/-- The synonym stage preserves the value of every key already present. -/
theorem synonymStage_preserves (d : List (String × PyVal)) (k : String)
    (hk : hasKey k d = true) : getKey? k (synonymStage d) = getKey? k d := by
  unfold synonymStage
  by_cases h1 : (hasKey "income_source_number" d &&
      !hasKey "income_source_sequence" d) = true
  · rw [if_pos h1]
    have hseq : hasKey "income_source_sequence" d = false := by
      have h2 : hasKey "income_source_number" d = true ∧
          hasKey "income_source_sequence" d = false := by simpa using h1
      exact h2.2
    have hk1 := hasKey_setKey_absent k "income_source_sequence"
      (dictGet "income_source_number" d) d hk hseq
    have he1 := getKey?_setKey_absent k "income_source_sequence"
      (dictGet "income_source_number" d) d hk hseq
    have hseq1 : hasKey "income_source_sequence"
        (setKey "income_source_sequence" (dictGet "income_source_number" d) d) = true := by
      unfold setKey
      rw [hseq]
      simp only [Bool.false_eq_true, if_false]
      unfold hasKey
      rw [List.any_append]
      simp
    by_cases h2 : (hasKey "income_source"
        (setKey "income_source_sequence" (dictGet "income_source_number" d) d) &&
        !hasKey "income_source_sequence"
          (setKey "income_source_sequence" (dictGet "income_source_number" d) d)) = true
    · have h2b : hasKey "income_source"
          (setKey "income_source_sequence" (dictGet "income_source_number" d) d) = true ∧
          hasKey "income_source_sequence"
            (setKey "income_source_sequence" (dictGet "income_source_number" d) d) =
            false := by simpa using h2
      rw [hseq1] at h2b
      exact absurd h2b.2 (by decide)
    · rw [if_neg h2]
      exact he1
  · rw [if_neg h1]
    by_cases h2 : (hasKey "income_source" d && !hasKey "income_source_sequence" d) = true
    · rw [if_pos h2]
      have hseq : hasKey "income_source_sequence" d = false := by
        have h2b : hasKey "income_source" d = true ∧
            hasKey "income_source_sequence" d = false := by simpa using h2
        exact h2b.2
      exact getKey?_setKey_absent k "income_source_sequence"
        (dictGet "income_source" d) d hk hseq
    · rw [if_neg h2]

/-- C3 (as stated, refuted): for the raw payload whose single item carries
`quantity = 0` under the canonical key and `5` under the Arabic alias
`الكمية`, the reconciled item's `quantity` is the alias value `5`, even
though the canonical key was present (with the falsy value `0`): the
per-item fields are combined with Python's `or`, which discards
present-but-falsy canonical values. -/
theorem counterexample_C3 :
    _post_process_extracted_data
        (PyVal.pdict
          [("items",
            PyVal.plist [PyVal.pdict [("quantity", PyVal.pint 0), ("الكمية", PyVal.pint 5)]])]) =
      PyVal.pdict
        [("items",
          PyVal.plist
            [PyVal.pdict
              [("description", PyVal.pnone), ("quantity", PyVal.pint 5),
               ("unit_price", PyVal.pnone), ("amount", PyVal.pnone),
               ("discount", PyVal.pnone), ("line_subtotal", PyVal.pnone),
               ("tax_rate", PyVal.pnone), ("tax_amount", PyVal.pnone),
               ("line_total", PyVal.pnone)]])] ∧
    dictGet "quantity" [("quantity", PyVal.pint 0), ("الكمية", PyVal.pint 5)] =
      PyVal.pint 0 ∧
    PyVal.pint 5 ≠ PyVal.pint 0 := by
  refine ⟨rfl, rfl, ?_⟩
  intro h
  injection h with h'
  exact absurd h' (by decide)

/-- C3 (amended): in the Field Reconciler, a top-level canonical key that
is already present is never overwritten — neither by the Arabic alias
table nor by the English synonym handling; a per-item canonical field
(description, quantity, unit_price, amount, discount) is preserved exactly
when its present value is truthy, since the item fields are combined with
Python's `or` (a present-but-falsy canonical value is replaced by the
Arabic alias value, see the counterexample). -/
theorem claim_C3 :
    (∀ (kvs : List (String × PyVal)) (k : String), hasKey k kvs = true →
        getKey? k (synonymStage (aliasStage kvs)) = getKey? k kvs) ∧
    (∀ (item : List (String × PyVal)) (k : String),
        k ∈ (["description", "quantity", "unit_price", "amount", "discount"] : List String) →
        pyTruthy (dictGet k item) = true →
        getKey? k (normItem item) = some (dictGet k item)) := by
  constructor
  · intro kvs k hk
    obtain ⟨ha, hb⟩ := aliasFold_preserves arabicToEnglish kvs k hk
    exact (synonymStage_preserves (aliasStage kvs) k hb).trans ha
  · intro item k hmem ht
    simp only [List.mem_cons, List.not_mem_nil, or_false] at hmem
    rcases hmem with rfl | rfl | rfl | rfl | rfl
    · show some (pyOr (dictGet "description" item) (dictGet "الوصف" item)) = _
      unfold pyOr
      rw [if_pos ht]
    · show some (pyOr (dictGet "quantity" item) (dictGet "الكمية" item)) = _
      unfold pyOr
      rw [if_pos ht]
    · show some (pyOr (dictGet "unit_price" item) (dictGet "سعر الوحدة" item)) = _
      unfold pyOr
      rw [if_pos ht]
    · show some (pyOr (dictGet "amount" item) (dictGet "المبلغ" item)) = _
      unfold pyOr
      rw [if_pos ht]
    · show some (pyOr (dictGet "discount" item) (dictGet "الخصم" item)) = _
      unfold pyOr
      rw [if_pos ht]

/-- Witness for C3 (amended) at concrete inputs: a present `tax_number`
survives alias resolution unchanged, and a truthy item `quantity` beats
its Arabic alias. -/
theorem claim_C3_witness :
    getKey? "tax_number"
        (synonymStage
          (aliasStage [("tax_number", PyVal.pstr "1"), ("الرقم الضريبي", PyVal.pstr "2")])) =
      some (PyVal.pstr "1") ∧
    getKey? "quantity" (normItem [("quantity", PyVal.pint 7), ("الكمية", PyVal.pint 5)]) =
      some (PyVal.pint 7) := by
  constructor
  · have h := claim_C3.1 [("tax_number", PyVal.pstr "1"), ("الرقم الضريبي", PyVal.pstr "2")]
      "tax_number" (by decide)
    rw [h]
    rfl
  · have h := claim_C3.2 [("quantity", PyVal.pint 7), ("الكمية", PyVal.pint 5)] "quantity"
      (by decide) (by decide)
    rw [h]
    rfl

/-- C5: when the invoice-level subtotal is absent, the completer sets it
to the sum of the (processed) items' present `line_subtotal` values
exactly when that sum is strictly positive, and leaves it null otherwise. -/
theorem claim_C5 (inv : InvoiceData) (h : inv.subtotal = Option.none) :
    (_post_process_invoice_data inv).subtotal =
      (if (sumLineSubtotals (inv.items.map processItem)).isPos then
        some (sumLineSubtotals (inv.items.map processItem))
      else Option.none) := by
  rw [pp_subtotal inv]
  unfold subtotalAfter
  rw [h]

/-- Witness for C5: items with line subtotals of value 100 and 50 yield
subtotal 150; items with line subtotals 0 and 0 leave it null. -/
theorem claim_C5_witness :
    (_post_process_invoice_data
        { items := [{ line_subtotal := some ⟨1000, 1⟩ },
                    { line_subtotal := some ⟨500, 1⟩ }] }).subtotal = some ⟨15000, 2⟩ ∧
    Dec.toRat ⟨15000, 2⟩ = 150 ∧
    (_post_process_invoice_data
        { items := [{ line_subtotal := some ⟨0, 0⟩ },
                    { line_subtotal := some ⟨0, 0⟩ }] }).subtotal = Option.none := by
  refine ⟨?_, by norm_num [Dec.toRat], ?_⟩
  · have h := claim_C5
      { items := [{ line_subtotal := some ⟨1000, 1⟩ },
                  { line_subtotal := some ⟨500, 1⟩ }] } rfl
    rw [h]
    decide
  · have h := claim_C5
      { items := [{ line_subtotal := some ⟨0, 0⟩ },
                  { line_subtotal := some ⟨0, 0⟩ }] } rfl
    rw [h]
    decide

/-- C6: when `grand_total` is absent, the completer resolves it from the
backfilled `subtotal` and `total_tax` in source order: their sum when both
are present, else `subtotal` alone, else — when only `total_tax` is
present — the sum of the (processed) items' present `line_total` values
gated on strict positivity, and otherwise leaves it null. -/
theorem claim_C6 (inv : InvoiceData) (h : inv.grand_total = Option.none) :
    (_post_process_invoice_data inv).grand_total =
      (match subtotalAfter inv, totalTaxAfter inv with
        | some s, some t => some (Dec.add s t)
        | some s, Option.none => some s
        | Option.none, some _ =>
          if (sumLineTotals (inv.items.map processItem)).isPos then
            some (sumLineTotals (inv.items.map processItem))
          else Option.none
        | Option.none, Option.none => Option.none) := by
  rw [pp_grand_total inv]
  unfold grandTotalAfter
  rw [h]

/-- Witness for C6: subtotal 100 with tax 16 gives grand total 116; only
tax present falls back to the items' line totals (value 30). -/
theorem claim_C6_witness :
    (_post_process_invoice_data
        { subtotal := some ⟨100, 0⟩, total_tax := some ⟨16, 0⟩ }).grand_total =
      some ⟨116, 0⟩ ∧
    (_post_process_invoice_data
        { total_tax := some ⟨50, 1⟩,
          items := [{ line_total := some ⟨300, 1⟩ }] }).grand_total = some ⟨300, 1⟩ ∧
    Dec.toRat ⟨300, 1⟩ = 30 := by
  refine ⟨?_, ?_, by norm_num [Dec.toRat]⟩
  · have h := claim_C6 { subtotal := some ⟨100, 0⟩, total_tax := some ⟨16, 0⟩ } rfl
    rw [h]
    decide
  · have h := claim_C6
      { total_tax := some ⟨50, 1⟩, items := [{ line_total := some ⟨300, 1⟩ }] } rfl
    rw [h]
    decide

/-! ## C7: the Numeric Normalizer on Arabic-indic digit strings -/

/-- The twelve-character alphabet of the claim: Arabic-indic digits and
the two Arabic separators. -/
def arabicNumericChars : List Char := "٠١٢٣٤٥٦٧٨٩٫٬".toList

/-- The Western-digit equivalent of one character, written out from the
spec's substitution table (each Arabic-indic digit to its Western digit,
both separator glyphs to `.`). -/
def westernEquivChar (c : Char) : Char :=
  if c = '٠' then '0'
  else if c = '١' then '1'
  else if c = '٢' then '2'
  else if c = '٣' then '3'
  else if c = '٤' then '4'
  else if c = '٥' then '5'
  else if c = '٦' then '6'
  else if c = '٧' then '7'
  else if c = '٨' then '8'
  else if c = '٩' then '9'
  else if c = '٫' then '.'
  else if c = '٬' then '.'
  else c

/-- The Western-digit equivalent of a string. -/
def westernEquiv (s : String) : String :=
  String.mk (s.toList.map westernEquivChar)

/-- On the claim's alphabet, the body of `normalize_numbers` is exactly
the character-wise Western-digit substitution: the translation table
agrees with it and produces no comma or space to remove. -/
theorem normalize_chars_eq (l : List Char) (h : ∀ c ∈ l, c ∈ arabicNumericChars) :
    (l.map translateChar).filter (fun c => !(c == ',' || c == ' ')) =
      l.map westernEquivChar := by
  induction l with
  | nil => rfl
  | cons a t ih =>
    have ha : a ∈ arabicNumericChars := h a (List.mem_cons_self a t)
    have hmain : translateChar a = westernEquivChar a := by fin_cases ha <;> decide
    have hkeep : (!(westernEquivChar a == ',' || westernEquivChar a == ' ')) = true := by
      fin_cases ha <;> decide
    simp only [List.map_cons, List.filter_cons, hmain, hkeep, if_true]
    rw [ih (fun c hc => h c (List.mem_cons_of_mem a hc))]

/-- C7: for every string over the Arabic-indic digit/separator alphabet,
normalization followed by float extraction yields the same result as
float extraction on the Western-digit equivalent string. -/
theorem claim_C7 (s : String) (h : ∀ c ∈ s.toList, c ∈ arabicNumericChars) :
    extract_number (normalize_numbers (some s)) =
      extract_number (some (westernEquiv s)) := by
  have key : pyNormalizeStr s = westernEquiv s := by
    unfold pyNormalizeStr westernEquiv
    exact congrArg String.mk (normalize_chars_eq s.toList h)
  show extract_number (some (pyNormalizeStr s)) = extract_number (some (westernEquiv s))
  rw [key]

/-- Witness for C7 at the concrete string `٣٫١٤` (i.e. `3.14`). -/
theorem claim_C7_witness :
    extract_number (normalize_numbers (some "٣٫١٤")) =
      extract_number (some (westernEquiv "٣٫١٤")) ∧
    extract_number (normalize_numbers (some "٣٫١٤")) =
      some ⟨314, 2⟩ :=
  ⟨claim_C7 "٣٫١٤" (by decide), by decide⟩
/-! ## C9 and C10: totality / degradation / sign of numeric parsing -/

/-- A fold of `digitStep` from a failed accumulator stays failed. -/
theorem digitStep_fold_none (cs : List Char) :
    cs.foldl digitStep Option.none = Option.none := by
  induction cs with
  | nil => rfl
  | cons a t ih => exact ih

/-- A digit list containing a character without decimal value has no
integer value. -/
theorem digitsVal?_none_of_mem (cs : List Char) (acc : Option Nat)
    (hex : ∃ c ∈ cs, decDigitVal? c = Option.none) :
    cs.foldl digitStep acc = Option.none := by
  induction cs generalizing acc with
  | nil =>
    rcases hex with ⟨c, hc, _⟩
    exact absurd hc (List.not_mem_nil c)
  | cons a t ih =>
    rcases hex with ⟨c, hc, hval⟩
    rcases List.mem_cons.mp hc with rfl | hmem
    · have hstep : digitStep acc c = Option.none := by
        unfold digitStep
        cases acc with
        | none => rfl
        | some x => rw [hval]
      simp only [List.foldl_cons, hstep]
      exact digitStep_fold_none t
    · simp only [List.foldl_cons]
      exact ih (digitStep acc a) ⟨c, hmem, hval⟩

/-- `float()` fails on a cleaned string without any decimal digit. -/
theorem pyFloat?_none_of_no_digit (cs : List Char)
    (h : ∀ c ∈ cs, decDigitVal? c = Option.none) : pyFloat? cs = Option.none := by
  unfold pyFloat?
  by_cases hdot : 2 ≤ cs.count '.'
  · rw [if_pos hdot]
  · rw [if_neg hdot]
    by_cases hlen : (cs.takeWhile (fun c => c ≠ '.')).length +
        ((cs.dropWhile (fun c => c ≠ '.')).drop 1).length = 0
    · rw [if_pos hlen]
    · rw [if_neg hlen]
      have hip : ∀ c ∈ cs.takeWhile (fun c => c ≠ '.'), decDigitVal? c = Option.none :=
        fun c hc => h c ((List.takeWhile_sublist _).subset hc)
      have hfp : ∀ c ∈ (cs.dropWhile (fun c => c ≠ '.')).drop 1,
          decDigitVal? c = Option.none :=
        fun c hc =>
          h c ((List.dropWhile_sublist _).subset ((List.drop_sublist 1 _).subset hc))
      cases hip0 : cs.takeWhile (fun c => c ≠ '.') with
      | nil =>
        cases hfp0 : (cs.dropWhile (fun c => c ≠ '.')).drop 1 with
        | nil =>
          exact absurd (by rw [hip0, hfp0]; rfl) hlen
        | cons b bs =>
          have hb : digitsVal? (b :: bs) = Option.none := by
            unfold digitsVal?
            exact digitsVal?_none_of_mem (b :: bs) (some 0)
              ⟨b, List.mem_cons_self b bs, by
                have := hfp b (by rw [hfp0]; exact List.mem_cons_self b bs)
                exact this⟩
          rw [hb]
          rfl
      | cons b bs =>
        have hb : digitsVal? (b :: bs) = Option.none := by
          unfold digitsVal?
          exact digitsVal?_none_of_mem (b :: bs) (some 0)
            ⟨b, List.mem_cons_self b bs, by
              have := hip b (by rw [hip0]; exact List.mem_cons_self b bs)
              exact this⟩
        rw [hb]

/-- The substitution table maps digit-free characters to digit-free
characters (the separators land on `.`). -/
theorem translateChar_no_digit (c : Char) (h : decDigitVal? c = Option.none) :
    decDigitVal? (translateChar c) = Option.none := by
  unfold translateChar
  by_cases h1 : 0x660 ≤ c.toNat ∧ c.toNat ≤ 0x669
  · exfalso
    have h0 : ¬(0x30 ≤ c.toNat ∧ c.toNat ≤ 0x39) := by omega
    unfold decDigitVal? at h
    rw [if_neg h0, if_pos h1] at h
    exact Option.noConfusion h
  · rw [if_neg h1]
    by_cases h2 : c.toNat = 0x66B ∨ c.toNat = 0x66C
    · rw [if_pos h2]
      decide
    · rw [if_neg h2]
      exact h

/-- A string without decimal digits extracts to `None`. -/
theorem extract_number_no_digit (s : String)
    (h : ∀ c ∈ s.toList, decDigitVal? c = Option.none) :
    extract_number (some s) = Option.none := by
  simp only [extract_number]
  by_cases hn : pyNormalizeStr s = ""
  · rw [if_pos hn]
  · rw [if_neg hn]
    have hnod : ∀ c ∈ (pyNormalizeStr s).toList.filter (fun c => pyIsDigit c || c == '.'),
        decDigitVal? c = Option.none := by
      intro c hc
      have hc1 := List.mem_of_mem_filter hc
      have hc2 : c ∈ (s.toList.map translateChar).filter
          (fun c => !(c == ',' || c == ' ')) := hc1
      have hc3 := List.mem_of_mem_filter hc2
      rcases List.mem_map.mp hc3 with ⟨c0, hc0, rfl⟩
      exact translateChar_no_digit c0 (h c0 hc0)
    by_cases he : ((pyNormalizeStr s).toList.filter
        (fun c => pyIsDigit c || c == '.')).isEmpty = true
    · rw [if_pos he]
    · rw [if_neg he]
      exact pyFloat?_none_of_no_digit _ hnod

/-- A string without decimal digits cleans to `None`. -/
theorem clean_tax_number_no_digit (s : String)
    (h : ∀ c ∈ s.toList, decDigitVal? c = Option.none) :
    _clean_tax_number (some s) = Option.none := by
  simp only [_clean_tax_number]
  by_cases hs : s = ""
  · rw [if_pos hs]
  · rw [if_neg hs]
    have hf : s.toList.filter (fun c => (decDigitVal? c).isSome) = [] := by
      rw [List.filter_eq_nil_iff]
      intro a ha
      rw [h a ha]
      decide
    rw [hf]
    rfl

/-- C9: the numeric parsing and field cleaning functions are total Lean
functions that degrade to `None` rather than failing: `extract_number`
returns `None` on `None`, on `"abc"`, and on every string containing no
decimal digit; `_clean_tax_number` likewise returns `None` on `None` and
on every digit-free string. -/
theorem claim_C9 :
    extract_number Option.none = Option.none ∧
    extract_number (some "abc") = Option.none ∧
    (∀ s : String, (∀ c ∈ s.toList, decDigitVal? c = Option.none) →
        extract_number (some s) = Option.none) ∧
    _clean_tax_number Option.none = Option.none ∧
    (∀ s : String, (∀ c ∈ s.toList, decDigitVal? c = Option.none) →
        _clean_tax_number (some s) = Option.none) :=
  ⟨rfl, by decide, extract_number_no_digit, rfl, clean_tax_number_no_digit⟩

/-- Witness for C9 at the concrete digit-free strings `"xyz"` and `"b-c"`. -/
theorem claim_C9_witness :
    extract_number (some "xyz") = Option.none ∧
    _clean_tax_number (some "b-c") = Option.none :=
  ⟨claim_C9.2.2.1 "xyz" (by decide), claim_C9.2.2.2.2 "b-c" (by decide)⟩

/-- A successfully parsed float has a nonnegative mantissa: the cleaned
string contains no minus sign, and the value is assembled from natural
digit values. -/
theorem pyFloat?_nonneg (cs : List Char) (d : Dec) (h : pyFloat? cs = some d) :
    0 ≤ d.mant := by
  unfold pyFloat? at h
  by_cases h1 : 2 ≤ cs.count '.'
  · rw [if_pos h1] at h
    exact Option.noConfusion h
  · rw [if_neg h1] at h
    by_cases h2 : (cs.takeWhile (fun c => c ≠ '.')).length +
        ((cs.dropWhile (fun c => c ≠ '.')).drop 1).length = 0
    · rw [if_pos h2] at h
      exact Option.noConfusion h
    · rw [if_neg h2] at h
      cases hi : digitsVal? (cs.takeWhile (fun c => c ≠ '.')) with
      | none =>
        simp only [hi] at h
        exact Option.noConfusion h
      | some i =>
        cases hf : digitsVal? ((cs.dropWhile (fun c => c ≠ '.')).drop 1) with
        | none =>
          simp only [hi, hf] at h
          exact Option.noConfusion h
        | some f =>
          simp only [hi, hf] at h
          injection h with h'
          rw [← h']
          positivity

/-- C10: `extract_number` never returns a negative value: the cleaning
step keeps only digit characters and the decimal point, so minus signs
are discarded and every parsed result is nonnegative. -/
theorem claim_C10 (x : Option String) (d : Dec) (h : extract_number x = some d) :
    0 ≤ Dec.toRat d := by
  have hm : 0 ≤ d.mant := by
    cases x with
    | none => exact Option.noConfusion h
    | some s =>
      simp only [extract_number] at h
      by_cases h1 : pyNormalizeStr s = ""
      · rw [if_pos h1] at h
        exact Option.noConfusion h
      · rw [if_neg h1] at h
        by_cases h2 : ((pyNormalizeStr s).toList.filter
            (fun c => pyIsDigit c || c == '.')).isEmpty = true
        · rw [if_pos h2] at h
          exact Option.noConfusion h
        · rw [if_neg h2] at h
          exact pyFloat?_nonneg _ d h
  unfold Dec.toRat
  apply div_nonneg
  · exact_mod_cast hm
  · positivity

/-- Witness for C10 at the concrete string `"42"`. -/
theorem claim_C10_witness :
    extract_number (some "42") = some ⟨42, 0⟩ ∧ 0 ≤ Dec.toRat ⟨42, 0⟩ :=
  ⟨by decide, claim_C10 (some "42") ⟨42, 0⟩ (by decide)⟩
